import Mathlib

/-!
Verification of the mask-combination logic of the notebook
`08-05-incorporating-masks-into-calibrated-science-images.ipynb`.

The notebook combines two session-wide static bad-pixel masks with a
logical OR (`combined_mask = mask_ccdmask.data | mask_hot_pix.data`),
then, for each science image, ORs in a per-image cosmic-ray mask and any
pre-existing image mask, and writes the image back with an explicit
`overwrite=True` flag.

Boolean pixel grids (numpy boolean arrays) are embedded as lists of rows
of `Bool`; the numpy element-wise `|` on same-shape arrays is `zipWith or`
applied row-wise.
-/

namespace CCDMasks

/-- A boolean pixel grid: a list of rows. -/
abbrev Mask := List (List Bool)

/-- The dimensions of a grid: the list of its row lengths
(for rectangular grids this determines the numpy shape). -/
def dims (m : Mask) : List Nat := m.map List.length

/-- Two grids have identical dimensions. -/
def sameShape (a b : Mask) : Prop := dims a = dims b

instance (a b : Mask) : Decidable (sameShape a b) := by
  unfold sameShape; infer_instance

/-- Element-wise OR of two rows (one row of numpy `a | b`). -/
def orRow (a b : List Bool) : List Bool := List.zipWith or a b

/-- Element-wise OR of two grids: the notebook's
`combined_mask = mask_ccdmask.data | mask_hot_pix.data` (cell 9) and the
`|` merges in the driver loop (cell 13). -/
def maskOr (a b : Mask) : Mask := List.zipWith orRow a b

/-- The cell of a grid at row `i`, column `j` (`false` out of bounds). -/
def elemAt (m : Mask) (i j : Nat) : Bool := (m.getD i []).getD j false

/-- The cell of an optional grid (`false` when the grid is absent). -/
def elemOpt (m : Option Mask) (i j : Nat) : Bool :=
  match m with
  | some g => elemAt g i j
  | none => false

/-- The number of `true` pixels of a grid (numpy `mask.sum()`, cell 11). -/
def trueCount (m : Mask) : Nat := (m.map (fun r => r.count true)).sum

/-- Error taxonomy of the spec for mask combination (§7). -/
inductive MaskError where
  | ShapeMismatch
  | InvalidInput
deriving DecidableEq

/-- Modelled from the spec: the general `combine` contract of §4.1 is
absent from the notebook, which only ever ORs two concrete same-shape
masks; §4.1 extends it to an ordered sequence: an empty sequence fails
with `InvalidInput`, a sequence with differing dimensions fails with
`ShapeMismatch`, otherwise every cell of the result is the OR of the
corresponding cells across all inputs. -/
def combine (masks : List Mask) : Except MaskError Mask :=
  match masks with
  | [] => Except.error MaskError.InvalidInput
  | m :: ms =>
    if ms.all (fun x => decide (sameShape m x)) then
      Except.ok (ms.foldl maskOr m)
    else
      Except.error MaskError.ShapeMismatch

/-- A science image: pixel data plus an optional mask
(the `CCDData` objects of the notebook). -/
structure CCDImage where
  data : List (List Int)
  mask : Option Mask
deriving DecidableEq

/-- Result of the cosmic-ray detector `ccdproc.cosmicray_lacosmic`
(cell 13): cleaned pixel data plus a cosmic-ray mask. -/
structure CRResult where
  data : List (List Int)
  mask : Mask
deriving DecidableEq

/-- The driver loop's `overall_mask = new_ccd.mask | combined_mask`
(cell 13). -/
def overallMask (crMask combinedMask : Mask) : Mask := maskOr crMask combinedMask

/-- The driver loop's conditional merge (cell 13): if the image already
has a mask, OR it with the overall mask; otherwise use the overall mask. -/
def finalMask (preMask : Option Mask) (overall : Mask) : Mask :=
  match preMask with
  | some m => maskOr m overall
  | none => overall

/-- One iteration of the driver loop (cell 13), up to persistence: the
cosmic-ray result's mask is ORed with the combined static mask, merged
with any pre-existing image mask, and stored as the image's mask. -/
def processCCD (combinedMask : Mask) (newCcd : CRResult) (ccd : CCDImage) : CCDImage :=
  { ccd with mask := some (finalMask ccd.mask (overallMask newCcd.mask combinedMask)) }

/-- Error of the persistence sink (§7). -/
inductive WriteError where
  | OverwriteDenied
deriving DecidableEq

/-- The on-disk state: file names paired with their stored images. -/
abbrev FileSystem := List (String × CCDImage)

/-- Whether a file exists at a path. -/
def fileExists (fs : FileSystem) (path : String) : Bool :=
  fs.any (fun p => p.1 == path)

/-- The stored image at a path, when one exists. -/
def lookupFile (fs : FileSystem) (path : String) : Option CCDImage :=
  (fs.find? (fun p => p.1 == path)).map Prod.snd

/-- Modelled from the spec: the persistence sink (`ccd.write`, cell 13)
is the external astropy writer, absent from the notebook; per §6 and §7
it takes an explicit overwrite flag and fails with `OverwriteDenied`
when the target file exists and overwrite was not requested, otherwise
it stores the image at the path. -/
def writeImage (fs : FileSystem) (path : String) (img : CCDImage) (overwrite : Bool) :
    Except WriteError FileSystem :=
  if fileExists fs path && !overwrite then
    Except.error WriteError.OverwriteDenied
  else
    Except.ok ((path, img) :: fs.filter (fun p => p.1 != path))

/-- One full iteration of the driver loop (cell 13): detect cosmic rays,
merge masks, and write the image back with the explicit `overwrite=True`
of the notebook. -/
def processAndWrite (combinedMask : Mask) (detect : CCDImage → CRResult)
    (fs : FileSystem) (path : String) (ccd : CCDImage) : Except WriteError FileSystem :=
  writeImage fs path (processCCD combinedMask (detect ccd) ccd) true

/-! Helper lemmas about shapes and element-wise OR. -/

theorem sameShape_symm {a b : Mask} (h : sameShape a b) : sameShape b a := Eq.symm h

theorem sameShape_trans {a b c : Mask} (h1 : sameShape a b) (h2 : sameShape b c) :
    sameShape a c := Eq.trans h1 h2

theorem orRow_getD (a : List Bool) :
    ∀ (b : List Bool), a.length = b.length →
      ∀ j, (orRow a b).getD j false = (a.getD j false || b.getD j false) := by
  induction a with
  | nil =>
    intro b h j
    cases b with
    | nil => simp [orRow]
    | cons y ys => simp at h
  | cons x xs ih =>
    intro b h j
    cases b with
    | nil => simp at h
    | cons y ys =>
      cases j with
      | zero => simp [orRow]
      | succ j => simpa [orRow] using ih ys (by simpa using h) j

theorem maskOr_elemAt (a : Mask) :
    ∀ (b : Mask), sameShape a b →
      ∀ i j, elemAt (maskOr a b) i j = (elemAt a i j || elemAt b i j) := by
  induction a with
  | nil =>
    intro b h i j
    cases b with
    | nil => simp [maskOr, elemAt]
    | cons s bs => simp [sameShape, dims] at h
  | cons r as ih =>
    intro b h i j
    cases b with
    | nil => simp [sameShape, dims] at h
    | cons s bs =>
      simp only [sameShape, dims, List.map_cons, List.cons.injEq] at h
      cases i with
      | zero => simpa [maskOr, elemAt] using orRow_getD r s h.1 j
      | succ i =>
        simpa [maskOr, elemAt] using ih bs (by simpa [sameShape, dims] using h.2) i j

theorem orRow_comm (a b : List Bool) : orRow a b = orRow b a :=
  List.zipWith_comm_of_comm or Bool.or_comm a b

theorem maskOr_comm (a b : Mask) : maskOr a b = maskOr b a :=
  List.zipWith_comm_of_comm orRow orRow_comm a b

theorem orRow_assoc (a : List Bool) :
    ∀ b c, orRow (orRow a b) c = orRow a (orRow b c) := by
  induction a with
  | nil => intro b c; simp [orRow]
  | cons x xs ih =>
    intro b c
    cases b with
    | nil => simp [orRow]
    | cons y ys =>
      cases c with
      | nil => simp [orRow]
      | cons z zs =>
        have htail := ih ys zs
        simp only [orRow] at htail ⊢
        simp [Bool.or_assoc, htail]

theorem maskOr_assoc (a : Mask) :
    ∀ b c, maskOr (maskOr a b) c = maskOr a (maskOr b c) := by
  induction a with
  | nil => intro b c; simp [maskOr]
  | cons r as ih =>
    intro b c
    cases b with
    | nil => simp [maskOr]
    | cons s bs =>
      cases c with
      | nil => simp [maskOr]
      | cons t cs =>
        have htail := ih bs cs
        simp only [maskOr] at htail ⊢
        simp [orRow_assoc, htail]

theorem orRow_self (a : List Bool) : orRow a a = a := by
  induction a with
  | nil => rfl
  | cons x xs ih =>
    simp only [orRow] at ih ⊢
    simp [ih]

theorem maskOr_self (a : Mask) : maskOr a a = a := by
  induction a with
  | nil => rfl
  | cons r as ih =>
    simp only [maskOr] at ih ⊢
    simp [orRow_self, ih]

theorem dims_maskOr (a : Mask) :
    ∀ b, sameShape a b → dims (maskOr a b) = dims a := by
  induction a with
  | nil => intro b h; simp [maskOr, dims]
  | cons r as ih =>
    intro b h
    cases b with
    | nil => simp [sameShape, dims] at h
    | cons s bs =>
      simp only [sameShape, dims, List.map_cons, List.cons.injEq] at h
      have htail := ih bs (by simpa [sameShape, dims] using h.2)
      simp only [dims, maskOr, List.zipWith_cons_cons, List.map_cons, List.cons.injEq]
      constructor
      · simp [orRow, List.length_zipWith, h.1]
      · simpa [dims, maskOr] using htail

theorem count_orRow_left (a : List Bool) :
    ∀ b, a.length = b.length → a.count true ≤ (orRow a b).count true := by
  induction a with
  | nil => intro b h; simp
  | cons x xs ih =>
    intro b h
    cases b with
    | nil => simp at h
    | cons y ys =>
      have hxs := ih ys (by simpa using h)
      simp only [orRow] at hxs
      cases x <;> cases y <;> simp [orRow, List.count_cons] <;> omega

theorem trueCount_maskOr_left (a : Mask) :
    ∀ b, sameShape a b → trueCount a ≤ trueCount (maskOr a b) := by
  induction a with
  | nil => intro b h; simp [trueCount, maskOr]
  | cons r as ih =>
    intro b h
    cases b with
    | nil => simp [sameShape, dims] at h
    | cons s bs =>
      simp only [sameShape, dims, List.map_cons, List.cons.injEq] at h
      have h1 := count_orRow_left r s h.1
      have h2 := ih bs (by simpa [sameShape, dims] using h.2)
      simp only [trueCount, maskOr, List.zipWith_cons_cons, List.map_cons, List.sum_cons] at h2 ⊢
      omega

theorem combine_pair (A B : Mask) (h : sameShape A B) :
    combine [A, B] = Except.ok (maskOr A B) := by
  simp [combine, h]

/-! Claim theorems. -/

/-- C1: combining two same-shape static masks is the element-wise logical
OR: `combine [A, B]` succeeds with the grid `maskOr A B`, whose cell
`[i,j]` is `true` iff `A[i,j]` is `true` or `B[i,j]` is `true`. -/
theorem combine_two_is_elementwise_or (A B : Mask) (h : sameShape A B) :
    combine [A, B] = Except.ok (maskOr A B) ∧
    ∀ i j, elemAt (maskOr A B) i j = (elemAt A i j || elemAt B i j) :=
  ⟨combine_pair A B h, maskOr_elemAt A B h⟩

/-- Witness for C1 at two concrete 1-by-2 masks. -/
theorem combine_two_is_elementwise_or_app :
    combine [[[false, true]], [[true, true]]]
      = Except.ok (maskOr [[false, true]] [[true, true]]) ∧
    elemAt (maskOr [[false, true]] [[true, true]]) 0 0
      = (elemAt [[false, true]] 0 0 || elemAt [[true, true]] 0 0) :=
  ⟨(combine_two_is_elementwise_or [[false, true]] [[true, true]] (by decide)).1,
   (combine_two_is_elementwise_or [[false, true]] [[true, true]] (by decide)).2 0 0⟩

/-- C2: the driver loop's final mask is the OR of the pre-existing mask
(if any), the cosmic-ray mask and the combined static mask, cell by cell;
in particular, for combined static mask `[[0,1],[1,0]]`, cosmic-ray mask
`[[1,0],[0,0]]` and no pre-existing mask, the final mask is
`[[1,1],[1,0]]`. -/
theorem driver_final_mask_or (c cr : Mask) (pre : Option Mask)
    (hcr : sameShape cr c)
    (hpre : ∀ m, pre = some m → sameShape m (overallMask cr c)) :
    (∀ i j, elemAt (finalMask pre (overallMask cr c)) i j
        = (elemOpt pre i j || (elemAt cr i j || elemAt c i j))) ∧
    finalMask none (overallMask [[true, false], [false, false]] [[false, true], [true, false]])
      = [[true, true], [true, false]] := by
  constructor
  · intro i j
    cases hp : pre with
    | none => simp [finalMask, elemOpt, overallMask, maskOr_elemAt cr c hcr]
    | some m =>
      have hm := hpre m hp
      have e1 := maskOr_elemAt m (maskOr cr c) hm i j
      have e2 := maskOr_elemAt cr c hcr i j
      simp [finalMask, elemOpt, overallMask, e1, e2]
  · rfl

/-- Witness for C2 at the end-to-end scenario of the spec. -/
theorem driver_final_mask_or_app :
    elemAt (finalMask none
        (overallMask [[true, false], [false, false]] [[false, true], [true, false]])) 1 0
      = (elemOpt none 1 0
          || (elemAt [[true, false], [false, false]] 1 0
              || elemAt [[false, true], [true, false]] 1 0)) ∧
    finalMask none (overallMask [[true, false], [false, false]] [[false, true], [true, false]])
      = [[true, true], [true, false]] := by
  have h := driver_final_mask_or [[false, true], [true, false]]
    [[true, false], [false, false]] none (by decide) (fun m hm => by cases hm)
  exact ⟨h.1 1 0, h.2⟩

/-- C3: persisting with the overwrite flag not requested fails with
`OverwriteDenied` whenever the target file exists, and the driver loop
always passes the explicit overwrite flag, so its write succeeds. -/
theorem write_overwrite_explicit (fs : FileSystem) (path : String) (img : CCDImage)
    (h : fileExists fs path = true) :
    writeImage fs path img false = Except.error WriteError.OverwriteDenied ∧
    ∀ (c : Mask) (detect : CCDImage → CRResult) (ccd : CCDImage),
      ∃ fs2, processAndWrite c detect fs path ccd = Except.ok fs2 := by
  constructor
  · simp [writeImage, h]
  · intro c detect ccd
    refine ⟨(path, processCCD c (detect ccd) ccd) :: fs.filter (fun p => p.1 != path), ?_⟩
    simp [processAndWrite, writeImage]

/-- Witness for C3 at a one-file store whose file is the write target. -/
theorem write_overwrite_explicit_app :
    writeImage [("img1.fits", ⟨[[0]], none⟩)] "img1.fits" ⟨[[1]], none⟩ false
      = Except.error WriteError.OverwriteDenied ∧
    ∃ fs2, processAndWrite [[false]] (fun ccd => ⟨ccd.data, [[true]]⟩)
        [("img1.fits", ⟨[[0]], none⟩)] "img1.fits" ⟨[[1]], none⟩ = Except.ok fs2 := by
  have h := write_overwrite_explicit [("img1.fits", ⟨[[0]], none⟩)] "img1.fits"
    ⟨[[1]], none⟩ (by rfl)
  exact ⟨h.1, h.2 [[false]] (fun ccd => ⟨ccd.data, [[true]]⟩) ⟨[[1]], none⟩⟩

/-- C4: a sequence containing two masks of differing dimensions makes
`combine` fail with `ShapeMismatch`; no grid is returned. -/
theorem combine_mismatch_fails (masks : List Mask) (a b : Mask)
    (ha : a ∈ masks) (hb : b ∈ masks) (hab : ¬ sameShape a b) :
    combine masks = Except.error MaskError.ShapeMismatch := by
  cases masks with
  | nil => cases ha
  | cons m ms =>
    rcases Bool.eq_false_or_eq_true (ms.all (fun x => decide (sameShape m x))) with hc | hc
    swap
    · simp [combine, hc]
    · exfalso
      have hall : ∀ x ∈ m :: ms, dims m = dims x := by
        intro x hx
        rcases List.mem_cons.mp hx with h | h
        · rw [h]
        · exact of_decide_eq_true (List.all_eq_true.mp hc x h)
      exact hab ((hall a ha).symm.trans (hall b hb))

/-- Witness for C4 at a 1-by-1 and a 1-by-2 mask. -/
theorem combine_mismatch_fails_app :
    combine [[[true]], [[true, false]]] = Except.error MaskError.ShapeMismatch :=
  combine_mismatch_fails [[[true]], [[true, false]]] [[true]] [[true, false]]
    (by decide) (by decide) (by decide)

/-- C5: combining the empty sequence of masks fails with `InvalidInput`;
no implicit identity mask is returned. -/
theorem combine_empty_fails : combine [] = Except.error MaskError.InvalidInput := rfl

/-- C6: OR-merging two same-shape masks is monotonic in the `true`-pixel
count: the merged count is at least each input's count, hence at least
their maximum. -/
theorem merge_count_monotone (a b : Mask) (h : sameShape a b) :
    trueCount a ≤ trueCount (maskOr a b) ∧ trueCount b ≤ trueCount (maskOr a b) ∧
      max (trueCount a) (trueCount b) ≤ trueCount (maskOr a b) := by
  have h1 := trueCount_maskOr_left a b h
  have h2 : trueCount b ≤ trueCount (maskOr a b) := by
    rw [maskOr_comm]
    exact trueCount_maskOr_left b a (sameShape_symm h)
  exact ⟨h1, h2, max_le h1 h2⟩

/-- Witness for C6 at two concrete 2-by-2 masks. -/
theorem merge_count_monotone_app :
    trueCount [[true, false], [false, false]]
        ≤ trueCount (maskOr [[true, false], [false, false]] [[false, true], [true, false]]) ∧
    trueCount [[false, true], [true, false]]
        ≤ trueCount (maskOr [[true, false], [false, false]] [[false, true], [true, false]]) ∧
    max (trueCount [[true, false], [false, false]]) (trueCount [[false, true], [true, false]])
        ≤ trueCount (maskOr [[true, false], [false, false]] [[false, true], [true, false]]) :=
  merge_count_monotone [[true, false], [false, false]] [[false, true], [true, false]]
    (by decide)

/-- C7: `combine` is commutative and associative on same-shape masks:
`combine [A, B] = combine [B, A]`, and combining `A` with the result of
`combine [B, C]` equals combining the result of `combine [A, B]` with
`C`. -/
theorem combine_comm_assoc (A B C : Mask) (hAB : sameShape A B) (hBC : sameShape B C) :
    combine [A, B] = combine [B, A] ∧
    (combine [B, C]).bind (fun bc => combine [A, bc])
      = (combine [A, B]).bind (fun ab => combine [ab, C]) := by
  have hBA := sameShape_symm hAB
  have hAC := sameShape_trans hAB hBC
  have hMBC : sameShape B (maskOr B C) := sameShape_symm (dims_maskOr B C hBC)
  have hA_BC : sameShape A (maskOr B C) := sameShape_trans hAB hMBC
  have hAB_C : sameShape (maskOr A B) C := sameShape_trans (dims_maskOr A B hAB) hAC
  constructor
  · rw [combine_pair A B hAB, combine_pair B A hBA, maskOr_comm]
  · rw [combine_pair B C hBC, combine_pair A B hAB]
    show combine [A, maskOr B C] = combine [maskOr A B, C]
    rw [combine_pair A (maskOr B C) hA_BC, combine_pair (maskOr A B) C hAB_C,
      maskOr_assoc]

/-- Witness for C7 at three concrete 1-by-2 masks. -/
theorem combine_comm_assoc_app :
    combine [[[true, false]], [[false, true]]] = combine [[[false, true]], [[true, false]]] ∧
    (combine [[[false, true]], [[false, false]]]).bind
        (fun bc => combine [[[true, false]], bc])
      = (combine [[[true, false]], [[false, true]]]).bind
          (fun ab => combine [ab, [[false, false]]]) :=
  combine_comm_assoc [[true, false]] [[false, true]] [[false, false]]
    (by decide) (by decide)

/-- C8: applying the merged mask is idempotent: merging the same overall
mask into an image whose mask already resulted from that merge leaves the
mask unchanged (processing twice equals processing once), and every pixel
`true` in a pre-existing image mask stays `true` in the final mask. -/
theorem apply_merge_idempotent (c cr : Mask) (pre : Option Mask) :
    finalMask (some (finalMask pre (overallMask cr c))) (overallMask cr c)
        = finalMask pre (overallMask cr c) ∧
    ∀ m, pre = some m → sameShape m (overallMask cr c) →
      ∀ i j, elemAt m i j = true →
        elemAt (finalMask pre (overallMask cr c)) i j = true := by
  constructor
  · cases pre with
    | none => simp [finalMask, maskOr_self]
    | some m => simp [finalMask, maskOr_assoc, maskOr_self]
  · intro m hm hsh i j hij
    subst hm
    simp [finalMask, maskOr_elemAt m _ hsh, hij]

/-- Witness for C8 at a concrete pre-existing mask and overall mask. -/
theorem apply_merge_idempotent_app :
    finalMask (some (finalMask (some [[true, false]])
          (overallMask [[false, true]] [[false, false]])))
        (overallMask [[false, true]] [[false, false]])
      = finalMask (some [[true, false]]) (overallMask [[false, true]] [[false, false]]) ∧
    elemAt (finalMask (some [[true, false]])
        (overallMask [[false, true]] [[false, false]])) 0 0 = true := by
  have h := apply_merge_idempotent [[false, false]] [[false, true]] (some [[true, false]])
  exact ⟨h.1, h.2 [[true, false]] rfl (by decide) 0 0 (by decide)⟩

/-- C9: combining a singleton sequence returns that mask itself,
cell-for-cell. -/
theorem combine_singleton_id (A : Mask) : combine [A] = Except.ok A := rfl

/-- C10: one driver iteration preserves the image's pixel data: the
stored image's data equals the original data, the cleaned pixel data of
the cosmic-ray result is discarded (only its mask matters), and the image
looked up after a successful write has the original pixel data. -/
theorem driver_preserves_data (c : Mask) (cr : CRResult) (ccd : CCDImage) :
    (processCCD c cr ccd).data = ccd.data ∧
    (∀ d : List (List Int), processCCD c ⟨d, cr.mask⟩ ccd = processCCD c cr ccd) ∧
    ∀ (detect : CCDImage → CRResult) (fs : FileSystem) (path : String) (fs2 : FileSystem),
      processAndWrite c detect fs path ccd = Except.ok fs2 →
        ∃ img, lookupFile fs2 path = some img ∧ img.data = ccd.data := by
  refine ⟨rfl, fun d => rfl, ?_⟩
  intro detect fs path fs2 h
  simp only [processAndWrite, writeImage, Bool.not_true, Bool.and_false,
    if_neg Bool.false_ne_true, Except.ok.injEq] at h
  subst h
  refine ⟨processCCD c (detect ccd) ccd, ?_, rfl⟩
  simp [lookupFile, List.find?]

/-- Witness for C10 at a concrete image, detector and store. -/
theorem driver_preserves_data_app :
    (processCCD [[false]] ⟨[[7]], [[true]]⟩ ⟨[[3]], none⟩).data = [[3]] ∧
    ∃ img, lookupFile
        ((processAndWrite [[false]] (fun _ => ⟨[[7]], [[true]]⟩) [] "img1.fits"
            ⟨[[3]], none⟩).toOption.getD []) "img1.fits" = some img ∧
      img.data = [[3]] := by
  have h := driver_preserves_data [[false]] ⟨[[7]], [[true]]⟩ ⟨[[3]], none⟩
  refine ⟨h.1, ?_⟩
  have h3 := h.2.2 (fun _ => ⟨[[7]], [[true]]⟩) [] "img1.fits"
    ((processAndWrite [[false]] (fun _ => ⟨[[7]], [[true]]⟩) [] "img1.fits"
        ⟨[[3]], none⟩).toOption.getD []) (by rfl)
  exact h3

end CCDMasks
